import Mathlib

/-!
# Verification of the murphy `collect-symbols` utility

A shallow embedding of `src/utils/collect-symbols.c`: a heuristic tokenizer
and symbol recognizer that scans preprocessed C text and extracts names of
top-level externally-linked symbols.

Modelling conventions:
* Bytes are Lean `Char`s; the C end-of-stream sentinel `0` is the character
  `NUL` below.  The buffered `read(2)` layer (`buf`/`len`/`rd`) is collapsed
  into a `List Char` of remaining bytes; the one-slot pushback `nxt` is kept
  exactly as in the C struct.
* Token text lives in a 16 KiB ring buffer in C (`ringbuf_save`); for the
  token lengths that actually occur (≤ 511 bytes plus NUL) a save never
  fails, so token values are modelled as plain `String`s.
* Loops that the C code performs with `while` are modelled with an explicit
  fuel parameter; `none` means the fuel ran out before the loop exited, so
  `∀ fuel, f fuel x = none` states that the C loop diverges on `x`.
* C functions returning `0`/`-1` are modelled with `Except Unit`.
-/

/-- Token kinds, mirroring `token_type_t` in `collect-symbols.c`. -/
inductive token_type_t where
  | TOKEN_BLOCK      -- a block enclosed in {}/()/[]
  | TOKEN_WORD       -- a word
  | TOKEN_DQUOTED    -- a double-quoted sequence
  | TOKEN_SQUOTED    -- a single-quoted sequence
  | TOKEN_ASSIGN     -- '='
  | TOKEN_SEMICOLON  -- ';'
  | TOKEN_COLON      -- ','
  | TOKEN_OTHER      -- any other token
deriving DecidableEq

/-- A token, mirroring `token_t`: a kind together with its text. -/
structure token_t where
  type  : token_type_t
  value : String
deriving DecidableEq

/-- `MAX_TOKEN` from the C source: maximum identifier buffer size. -/
def MAX_TOKEN : Nat := 512

/-- `MAX_TOKENS` from the C source: token capacity of one logical unit. -/
def MAX_TOKENS : Nat := 64

/-- The C end-of-stream sentinel character `0`. -/
def NUL : Char := Char.ofNat 0

/-- Character stream state, mirroring `input_t`: the remaining bytes of the
file (buffering collapsed) and the single pushback slot `nxt`
(`NUL` meaning "empty", as in the C code's `in->nxt == 0`). -/
structure input_t where
  data : List Char
  nxt  : Char

/-- `input_read`: deliver (and clear) a pushed back character if there is
one, otherwise the next byte of the stream, or `NUL` at end of stream. -/
def input_read (i : input_t) : Char × input_t :=
  if i.nxt ≠ NUL then
    (i.nxt, ⟨i.data, NUL⟩)
  else
    match i.data with
    | []      => (NUL, i)
    | c :: cs => (c, ⟨cs, NUL⟩)

/-- `input_pushback`: push back one character; fails (EBUSY) if a character
is already pending.  Note that, as in the C code, pushing back the sentinel
`0` stores nothing (`nxt` is set to `0`, i.e. "empty") yet succeeds. -/
def input_pushback (i : input_t) (ch : Char) : Except Unit input_t :=
  if i.nxt = NUL then .ok ⟨i.data, ch⟩
  else .error ()

/-- The C callers of `input_pushback` that ignore its return value: on
failure the stream is left unchanged. -/
def input_pushback_ignore (i : input_t) (ch : Char) : input_t :=
  match input_pushback i ch with
  | .ok i'   => i'
  | .error _ => i

/-- `input_discard_whitespace`: discard a run of spaces, tabs and newlines,
pushing back the first other character.  Fueled; `none` = fuel exhausted. -/
def input_discard_whitespace : Nat → input_t → Option input_t :=
  Nat.rec (motive := fun _ => input_t → Option input_t)
    (fun _ => none)
    (fun _ ih i =>
      let (ch, i') := input_read i
      if ch = ' ' ∨ ch = '\t' ∨ ch = '\n' then ih i'
      else some (input_pushback_ignore i' ch))

/-- `input_discard_line`: discard input through the next newline or end of
stream. Fueled; `none` = fuel exhausted. -/
def input_discard_line : Nat → input_t → Option input_t :=
  Nat.rec (motive := fun _ => input_t → Option input_t)
    (fun _ => none)
    (fun _ ih i =>
      let (ch, i') := input_read i
      if ch ≠ '\n' ∧ ch ≠ NUL then ih i'
      else some i')

/-- `input_discard_quoted`: discard through the closing quote, a backslash
skipping the following byte; error if end of stream comes first. -/
def input_discard_quoted : Nat → input_t → Char →
    Option (Except Unit input_t) :=
  Nat.rec (motive := fun _ => input_t → Char → Option (Except Unit input_t))
    (fun _ _ => none)
    (fun _ ih i quote =>
      let (ch, i') := input_read i
      if ch = quote then some (.ok i')
      else if ch = NUL then some (.error ())
      else if ch = '\\' then
        let (_, i'') := input_read i'
        ih i'' quote
      else ih i' quote)

/-- The close bracket matching an open bracket, from the `switch` at the top
of `input_discard_block`; `none` for the `default: return 0` case. -/
def block_end : Char → Option Char
  | '{' => some '}'
  | '[' => some ']'
  | '(' => some ')'
  | _   => none

/-- The `while (level > 0)` loop of `input_discard_block`.  Exactly as in
the C source, reading the end-of-stream sentinel inside the loop does not
change `level` and does not exit the loop. -/
def input_discard_block_aux : Nat → input_t → Char → Char → Nat →
    Option (Except Unit input_t) :=
  Nat.rec
    (motive := fun _ => input_t → Char → Char → Nat →
      Option (Except Unit input_t))
    (fun _ _ _ _ => none)
    (fun f ih i beg en level =>
      if level = 0 then some (.ok i)
      else
        let (ch, i') := input_read i
        if ch = '"' ∨ ch = '\'' then
          match input_discard_quoted f i' ch with
          | none            => none
          | some (.error e) => some (.error e)
          | some (.ok i'')  => ih i'' beg en level
        else if ch = en then ih i' beg en (level - 1)
        else if ch = beg then ih i' beg en (level + 1)
        else ih i' beg en level)

/-- `input_discard_block`: discard a balanced `{}`/`[]`/`()` region. -/
def input_discard_block (f : Nat) (i : input_t) (beg : Char) :
    Option (Except Unit input_t) :=
  match block_end beg with
  | none    => some (.ok i)
  | some en => input_discard_block_aux f i beg en 1

/-- `WORD_CHAR` from `input_collect_word`. -/
def word_char (c : Char) : Bool :=
  decide (('a' ≤ c ∧ c ≤ 'z') ∨ ('A' ≤ c ∧ c ≤ 'Z') ∨
          ('0' ≤ c ∧ c ≤ '9') ∨ c = '_' ∨ c = '$')

/-- The bounded `for` loop of `input_collect_word`: `budget` counts the
remaining slots of the 512-byte buffer; exhausting it is the C `ENOSPC`
failure. -/
def input_collect_word_aux : Nat → input_t → String →
    Option (String × input_t) :=
  Nat.rec (motive := fun _ => input_t → String → Option (String × input_t))
    (fun _ _ => none)
    (fun _ ih i acc =>
      let (ch, i') := input_read i
      if word_char ch then ih i' (acc.push ch)
      else some (acc, input_pushback_ignore i' ch))

/-- `input_collect_word`: collect a maximal run of identifier characters
(at most `MAX_TOKEN - 1` of them), pushing back the terminating byte.
`none` is the C `NULL` return (oversized identifier). -/
def input_collect_word (i : input_t) : Option (String × input_t) :=
  input_collect_word_aux (MAX_TOKEN - 1) i ""

/-- The per-unit flags computed by the scan loop at the top of
`symbol_from_tokens`.  `has_assign` is `0` for "no assign seen", else
`1 + i` where `i` is the index of the Assign token — the loop overwrites it
at every Assign token it meets. -/
structure flags_t where
  has_paren   : Bool
  has_curly   : Bool
  has_bracket : Bool
  has_assign  : Nat

/-- `MATCHING_TOKEN` from `symbol_from_tokens`: token `n` exists, has the
given kind, and (unless `v` is empty) the given text. -/
def matching_token (ts : List token_t) (n : Nat) (ty : token_type_t)
    (v : String) : Bool :=
  match ts[n]? with
  | some t => decide (t.type = ty) && (v == "" || v == t.value)
  | none   => false

/-- The flag-computing `for` loop of `symbol_from_tokens`. -/
def scan_flags (ts : List token_t) : flags_t :=
  ts.enum.foldl
    (fun fl it =>
      if it.2.type = .TOKEN_BLOCK ∧ it.2.value = "(" then
        { fl with has_paren := true }
      else if it.2.type = .TOKEN_BLOCK ∧ it.2.value = "\x7b" then
        { fl with has_curly := true }
      else if it.2.type = .TOKEN_BLOCK ∧ it.2.value = "[" then
        { fl with has_bracket := true }
      else if it.2.type = .TOKEN_ASSIGN then
        { fl with has_assign := it.1 + 1 }
      else fl)
    ⟨false, false, false, 0⟩

/-- Rule 1 of `symbol_from_tokens` ("take care of function prototypes"):
with at least four tokens and a `[..., Word, "(", ";"]` tail, the Word. -/
def rule_proto (ts : List token_t) (last : Nat) : Option String :=
  if 2 < last ∧ matching_token ts last .TOKEN_SEMICOLON ""
        ∧ matching_token ts (last - 1) .TOKEN_BLOCK "("
        ∧ matching_token ts (last - 2) .TOKEN_WORD "" then
    (ts[last - 2]?).map token_t.value
  else none

/-- Rule 2 of `symbol_from_tokens` ("global variables with assignments"):
the Word just before the Assign recorded in `has_assign`, or the Word just
before a `[` block before that Assign. -/
def rule_assign (ts : List token_t) (last : Nat) (has_assign : Nat) :
    Option String :=
  if 1 < last ∧ has_assign ≠ 0 then
    let i := has_assign - 1
    if 0 < i ∧ matching_token ts (i - 1) .TOKEN_WORD "" then
      (ts[i - 1]?).map token_t.value
    else if 1 < i ∧ matching_token ts (i - 1) .TOKEN_BLOCK "["
        ∧ matching_token ts (i - 2) .TOKEN_WORD "" then
      (ts[i - 2]?).map token_t.value
    else none
  else none

/-- Rule 3 of `symbol_from_tokens` ("global variables"): no paren and no
curly block anywhere, and a `[..., Word, ";"]` tail. -/
def rule_plain (ts : List token_t) (last : Nat) (has_paren has_curly : Bool) :
    Option String :=
  if 1 < last ∧ has_paren = false ∧ has_curly = false
        ∧ matching_token ts last .TOKEN_SEMICOLON ""
        ∧ matching_token ts (last - 1) .TOKEN_WORD "" then
    (ts[last - 1]?).map token_t.value
  else none

/-- `symbol_from_tokens`: extract the symbol denoted by a completed logical
unit, if any.  (The C function is only ever called with `ntoken > 0`; on an
empty unit this model returns `none`.) -/
def symbol_from_tokens (ts : List token_t) : Option String :=
  match ts.head? with
  | none => none
  | some t0 =>
    if t0.type ≠ .TOKEN_WORD then none
    else if t0.value = "typedef" ∨ t0.value = "static" then none
    else
      (rule_proto ts (ts.length - 1)).orElse fun _ =>
      (rule_assign ts (ts.length - 1) (scan_flags ts).has_assign).orElse fun _ =>
      rule_plain ts (ts.length - 1) (scan_flags ts).has_paren
        (scan_flags ts).has_curly

/-- `symtab_add`: linear scan for an equal entry; no-op if present,
otherwise append an owned copy. -/
def symtab_add (st : List String) (sym : String) : List String :=
  if sym ∈ st then st else st ++ [sym]

/-- A whole run of `symtab_add` calls starting from a given table. -/
def symtab_add_all (st : List String) (syms : List String) : List String :=
  syms.foldl symtab_add st

/-- `symtab_dump`: render the table, either one name per line, or as a GNU
ld version script (mirroring the `fprintf` sequence of the C function). -/
def symtab_dump (st : List String) (gnuld : Bool) : String :=
  if ¬gnuld then
    String.join (st.map fun s => s ++ "\n")
  else
    "\x7b\n"
    ++ (if 0 < st.length then
          "    global:\n"
          ++ String.join (st.map fun s => "        " ++ s ++ ";\n")
        else "")
    ++ "    local:\n"
    ++ "        *;\n"
    ++ "\x7d;\n"

/-- The state of the `collect_tokens` loop: the input stream, the tokens
accumulated so far (`tokens[0..n-1]`), and the `has_paren` flag. -/
structure cstate where
  inp       : input_t
  toks      : List token_t
  has_paren : Bool

/-- Outcome of one iteration of the `collect_tokens` loop body. -/
inductive step_res where
  | fail     : step_res                              -- C `return -1`
  | finished : List token_t → input_t → step_res     -- C `return n(+1)`
  | next     : cstate → step_res                     -- fall to next iteration

/-- The `__attribute__` test of `collect_tokens`: the previous token exists,
is a Word, and its text is `__attribute__`. -/
def attribute_word : Option token_t → Bool
  | some t => decide (t.type = .TOKEN_WORD) && t.value == "__attribute__"
  | none   => false

/-- One iteration of the `switch` in `collect_tokens`; `f` fuels the nested
discard loops.  `none` = a nested loop ran out of fuel. -/
def collect_step (f : Nat) (s : cstate) : Option step_res :=
  let (ch, i') := input_read s.inp
  if ch = ';' then
    some (.finished (s.toks ++ [⟨.TOKEN_SEMICOLON, ";"⟩]) i')
  else if ch = '#' then
    match input_discard_line f i' with
    | none     => none
    | some i'' => some (.next ⟨i'', s.toks, s.has_paren⟩)
  else if ch = ' ' ∨ ch = '\t' then
    match input_discard_whitespace f i' with
    | none     => none
    | some i'' => some (.next ⟨i'', s.toks, s.has_paren⟩)
  else if ch = '\n' then
    some (.next ⟨i', s.toks, s.has_paren⟩)
  else if ch = '{' ∨ ch = '(' ∨ ch = '[' then
    match input_discard_block f i' ch with
    | none            => none
    | some (.error _) => some .fail
    | some (.ok i'')  =>
      if ch = '(' ∧ attribute_word s.toks.getLast? then
        some (.next ⟨i'', s.toks.dropLast, s.has_paren⟩)
      else
        let v : String := if ch = '{' then "\x7b" else if ch = '[' then "[" else "("
        let toks' := s.toks ++ [⟨.TOKEN_BLOCK, v⟩]
        if ch = '(' then some (.next ⟨i'', toks', true⟩)
        else if ch = '{' ∧ s.has_paren then some (.finished toks' i'')
        else some (.next ⟨i'', toks', s.has_paren⟩)
  else if ch = NUL then
    some (.finished s.toks i')
  else if word_char ch then
    match input_collect_word (input_pushback_ignore i' ch) with
    | none          => some .fail
    | some (w, i'') =>
      some (.next ⟨i'', s.toks ++ [⟨.TOKEN_WORD, w⟩], s.has_paren⟩)
  else if ch = '=' then
    some (.next ⟨i', s.toks ++ [⟨.TOKEN_ASSIGN, "="⟩], s.has_paren⟩)
  else
    some (.next ⟨i', s.toks, s.has_paren⟩)   -- '*' and the debug default

/-- The `while (n < ntoken)` loop of `collect_tokens`; falling out of the
loop is the C `EOVERFLOW` failure. -/
def collect_tokens_loop : Nat → cstate → Nat →
    Option (Except Unit (List token_t × input_t)) :=
  Nat.rec
    (motive := fun _ => cstate → Nat →
      Option (Except Unit (List token_t × input_t)))
    (fun _ _ => none)
    (fun f ih s ntoken =>
      if s.toks.length < ntoken then
        match collect_step f s with
        | none               => none
        | some .fail         => some (.error ())
        | some (.finished ts i) => some (.ok (ts, i))
        | some (.next s')    => ih s' ntoken
      else some (.error ()))

/-- `collect_tokens`: collect one logical unit of at most `ntoken` tokens
from the input.  The C return values `-1` / `n` become
`some (.error ())` / `some (.ok (tokens, input'))`. -/
def collect_tokens (f : Nat) (i : input_t) (ntoken : Nat) :
    Option (Except Unit (List token_t × input_t)) :=
  collect_tokens_loop f ⟨i, [], false⟩ ntoken

/-- The scanning loop of `extract_symbols`: repeatedly collect a unit,
recognize a symbol, filter it and add it to the table; any `collect_tokens`
outcome other than a non-empty unit stops the scan of the file.  `filt`
stands for the compiled regex test (`true` everywhere when no pattern was
given). -/
def extract_symbols : Nat → Nat → (String → Bool) → input_t →
    List String → List String :=
  Nat.rec
    (motive := fun _ => Nat → (String → Bool) → input_t →
      List String → List String)
    (fun _ _ _ st => st)
    (fun _ ih g filt i st =>
      match collect_tokens g i MAX_TOKENS with
      | some (.ok (toks, i')) =>
        if 0 < toks.length then
          let st' :=
            match symbol_from_tokens toks with
            | some sym => if filt sym then symtab_add st sym else st
            | none     => st
          ih g filt i' st'
        else st
      | some (.error _) => st
      | none            => st)

/-- Wrap a Lean string as a character stream with no pending pushback. -/
def input_of_string (s : String) : input_t := ⟨s.data, NUL⟩

/-! ## Properties -/

/-- At end of stream, one loop iteration of `input_discard_block` reads the
sentinel, leaves `level` untouched, and loops again: no fuel suffices. -/
theorem discard_block_aux_eof (f : Nat) (beg en : Char) (level : Nat)
    (hen : en ≠ NUL) (hbeg : beg ≠ NUL) (hl : level ≠ 0) :
    input_discard_block_aux f ⟨[], NUL⟩ beg en level = none := by
  induction f with
  | zero => rfl
  | succ f ih =>
    simp only [input_discard_block_aux, input_read]
    rw [if_neg hl]
    simp only [ne_eq, not_true_eq_false, if_false, reduceCtorEq]
    have h1 : ¬(NUL = '"' ∨ NUL = '\'') := by decide
    rw [if_neg h1, if_neg (Ne.symm hen), if_neg (Ne.symm hbeg)]
    exact ih

/-- C3: `input_discard_block` called at end of stream with positive nesting
balance never terminates: for every fuel bound the fueled model still has
not exited the loop (`none`), for each of the three opening brackets.  The
C loop body never tests for the end-of-stream sentinel, so the
`errno = EINVAL; return -1;` after the loop is unreachable: the claimed
"fails on end of stream" behavior is the evident intent, and the code
diverges instead. -/
theorem c3_discard_block_eof_diverges (f : Nat) :
    input_discard_block f ⟨[], NUL⟩ '{' = none ∧
    input_discard_block f ⟨[], NUL⟩ '[' = none ∧
    input_discard_block f ⟨[], NUL⟩ '(' = none := by
  refine ⟨?_, ?_, ?_⟩ <;>
    exact discard_block_aux_eof f _ _ 1 (by decide) (by decide) (by decide)

/-- `symtab_add` preserves freedom from duplicates. -/
theorem symtab_add_nodup (st : List String) (s : String) (h : st.Nodup) :
    (symtab_add st s).Nodup := by
  unfold symtab_add
  split
  · exact h
  · next hmem => simp [List.nodup_append, h, hmem]

/-- Any run of `symtab_add` calls from a duplicate-free table stays
duplicate-free. -/
theorem symtab_add_all_nodup (syms : List String) (st : List String)
    (h : st.Nodup) : (symtab_add_all st syms).Nodup := by
  induction syms generalizing st with
  | nil => exact h
  | cons x xs ih => exact ih (symtab_add st x) (symtab_add_nodup st x h)

/-- C5: the Symbol Table never contains two equal entries: any sequence of
`symtab_add` calls starting from the empty table yields a duplicate-free
table; adding an already-present name is a no-op; and a new name is
appended at the end, so surviving entries stay in first-insertion order. -/
theorem c5_symtab_nodup_ordered (names st : List String) (s : String) :
    (symtab_add_all [] names).Nodup ∧
    (s ∈ st → symtab_add st s = st) ∧
    (s ∉ st → symtab_add st s = st ++ [s]) := by
  refine ⟨symtab_add_all_nodup names [] (by simp), ?_, ?_⟩
  · intro h; simp [symtab_add, h]
  · intro h; simp [symtab_add, h]

/-- Witness for C5 at concrete inputs: adding `"a"`, `"b"`, `"a"` leaves a
duplicate-free table, and re-adding `"a"` to `["a"]` changes nothing. -/
theorem c5_witness :
    (symtab_add_all [] ["a", "b", "a"]).Nodup ∧ symtab_add ["a"] "a" = ["a"] :=
  ⟨(c5_symtab_nodup_ordered ["a", "b", "a"] ["a"] "a").1,
   (c5_symtab_nodup_ordered ["a", "b", "a"] ["a"] "a").2.1 (by decide)⟩

/-- C6: in version-script mode an empty table produces exactly the lines
`{`, `    local:`, `        *;`, `};` (no `global:` line, no entries),
and a non-empty table produces `    global:` followed by one
`        <name>;` line per symbol in table order before the same closing
block. -/
theorem c6_version_script :
    symtab_dump [] true = "\x7b\n    local:\n        *;\n\x7d;\n" ∧
    (∀ s ss, symtab_dump (s :: ss) true =
      "\x7b\n    global:\n"
      ++ String.join ((s :: ss).map fun x => "        " ++ x ++ ";\n")
      ++ "    local:\n        *;\n\x7d;\n") := by
  constructor
  · rfl
  · intro s ss
    simp only [symtab_dump, String.append_assoc, List.length_cons,
      Nat.zero_lt_succ, if_pos, Bool.not_true, if_neg]
    rfl

/-- C9: with no pushback pending, pushing back the end-of-stream sentinel
`0` succeeds yet stores nothing: the stream is unchanged, a following
`input_read` serves the stream (not the pushback slot), and a further
pushback of any character still succeeds. -/
theorem c9_pushback_nul (i : input_t) (h : i.nxt = NUL) :
    input_pushback i NUL = .ok i ∧
    (∀ ch, input_pushback i ch = .ok ⟨i.data, ch⟩) ∧
    (i.data = [] → input_read i = (NUL, i)) ∧
    (∀ c cs, i.data = c :: cs → input_read i = (c, ⟨cs, NUL⟩)) := by
  obtain ⟨d, nx⟩ := i
  simp only at h
  subst h
  refine ⟨by simp [input_pushback], fun ch => by simp [input_pushback], ?_, ?_⟩
  · intro hd; simp only at hd; subst hd; rfl
  · intro c cs hd; simp only at hd; subst hd; rfl

/-- Witness for C9 at a concrete stream `"a"`: pushback of `0` succeeds and
leaves the state alone, and a pushback of `'b'` afterwards succeeds. -/
theorem c9_witness :
    input_pushback ⟨['a'], NUL⟩ NUL = .ok ⟨['a'], NUL⟩ ∧
    input_pushback ⟨['a'], NUL⟩ 'b' = .ok ⟨['a'], 'b'⟩ :=
  ⟨(c9_pushback_nul ⟨['a'], NUL⟩ rfl).1,
   (c9_pushback_nul ⟨['a'], NUL⟩ rfl).2.1 'b'⟩

/-- When the leading token is a Word other than `typedef`/`static`, the
recognizer is the ordered disjunction of its three rules. -/
theorem symbol_from_tokens_rules (ts : List token_t) (t0 : token_t)
    (h0 : ts.head? = some t0) (hty : t0.type = .TOKEN_WORD)
    (hv1 : t0.value ≠ "typedef") (hv2 : t0.value ≠ "static") :
    symbol_from_tokens ts =
      (rule_proto ts (ts.length - 1)).orElse (fun _ =>
        (rule_assign ts (ts.length - 1) (scan_flags ts).has_assign).orElse
          (fun _ =>
            rule_plain ts (ts.length - 1) (scan_flags ts).has_paren
              (scan_flags ts).has_curly)) := by
  simp only [symbol_from_tokens, h0]
  rw [if_neg (by simp [hty]), if_neg (by simp [hv1, hv2])]

/-- C1 counterexample: the 3-token unit `foo ( ;` — exactly the unit that
`foo();` tokenizes to — satisfies every premise of the claim (first token a
Word that is neither `typedef` nor `static`, at least 3 tokens, tail
`Word "(" ";"`), yet the recognizer returns no symbol at all: the C guard
is `last > 2`, i.e. at least 4 tokens. -/
theorem c1_counterexample :
    collect_tokens 20 (input_of_string "foo();") 64 =
      some (.ok ([⟨.TOKEN_WORD, "foo"⟩, ⟨.TOKEN_BLOCK, "("⟩,
                  ⟨.TOKEN_SEMICOLON, ";"⟩], ⟨[], NUL⟩)) ∧
    ([⟨.TOKEN_WORD, "foo"⟩, ⟨.TOKEN_BLOCK, "("⟩,
      ⟨.TOKEN_SEMICOLON, ";"⟩] : List token_t).length = 3 ∧
    symbol_from_tokens [⟨.TOKEN_WORD, "foo"⟩, ⟨.TOKEN_BLOCK, "("⟩,
      ⟨.TOKEN_SEMICOLON, ";"⟩] = none :=
  ⟨rfl, rfl, rfl⟩

/-- C1 amended: for every completed logical unit of at least **4** tokens
whose first token is a Word other than `typedef`/`static` and whose last
three tokens are, in order, a Word, a Block-Open `(`, and a Semicolon, the
recognizer returns that Word's text. -/
theorem c1_amended_proto (pre : List token_t) (w : String) (t0 : token_t)
    (h0 : pre.head? = some t0) (hty : t0.type = .TOKEN_WORD)
    (hv1 : t0.value ≠ "typedef") (hv2 : t0.value ≠ "static") :
    symbol_from_tokens
      (pre ++ [⟨.TOKEN_WORD, w⟩, ⟨.TOKEN_BLOCK, "("⟩, ⟨.TOKEN_SEMICOLON, ";"⟩])
      = some w := by
  have hpre : pre ≠ [] := fun h => by simp [h] at h0
  have hp : 0 < pre.length := List.length_pos.mpr hpre
  set ts : List token_t :=
    pre ++ [⟨.TOKEN_WORD, w⟩, ⟨.TOKEN_BLOCK, "("⟩, ⟨.TOKEN_SEMICOLON, ";"⟩]
    with hts
  have hlen : ts.length = pre.length + 3 := by simp [hts]
  have ehead : ts.head? = some t0 := by
    rw [hts, List.head?_eq_getElem? _, List.getElem?_append_left hp,
        ← List.head?_eq_getElem? pre]
    exact h0
  have e0 : ts[pre.length]? = some ⟨.TOKEN_WORD, w⟩ := by
    rw [hts, List.getElem?_append_right (le_refl _)]
    simp
  have e1 : ts[pre.length + 1]? = some ⟨.TOKEN_BLOCK, "("⟩ := by
    rw [hts, List.getElem?_append_right (by omega)]
    simp
  have e2 : ts[pre.length + 2]? = some ⟨.TOKEN_SEMICOLON, ";"⟩ := by
    rw [hts, List.getElem?_append_right (by omega)]
    simp
  have hlast : ts.length - 1 = pre.length + 2 := by omega
  have hrule : rule_proto ts (pre.length + 2) = some w := by
    unfold rule_proto
    rw [if_pos]
    · rw [show pre.length + 2 - 2 = pre.length from rfl, e0]
      rfl
    · refine ⟨by omega, by simp [matching_token, e2], ?_, ?_⟩
      · rw [show pre.length + 2 - 1 = pre.length + 1 from rfl]
        simp [matching_token, e1]
      · rw [show pre.length + 2 - 2 = pre.length from rfl]
        simp [matching_token, e0]
  rw [symbol_from_tokens_rules ts t0 ehead hty hv1 hv2, hlast, hrule]
  rfl

/-- Witness for the amended C1 at `int foo ( ;` (the unit of
`int foo(int x);`): the symbol is `foo`. -/
theorem c1_witness :
    symbol_from_tokens
      ([⟨.TOKEN_WORD, "int"⟩] ++ [⟨.TOKEN_WORD, "foo"⟩, ⟨.TOKEN_BLOCK, "("⟩,
        ⟨.TOKEN_SEMICOLON, ";"⟩]) = some "foo" :=
  c1_amended_proto [⟨.TOKEN_WORD, "int"⟩] "foo" ⟨.TOKEN_WORD, "int"⟩
    rfl rfl (by decide) (by decide)

/-- C4 counterexample: the 2-token unit `x ;` — exactly the unit that `x;`
tokenizes to — satisfies every premise of the claim (more than 1 token,
leading Word neither `typedef` nor `static`, no paren and no curly block,
tail `Word ";"`), yet the recognizer returns no symbol: the C guard is
`last > 1`, i.e. more than 2 tokens. -/
theorem c4_counterexample :
    collect_tokens 10 (input_of_string "x;") 64 =
      some (.ok ([⟨.TOKEN_WORD, "x"⟩, ⟨.TOKEN_SEMICOLON, ";"⟩], ⟨[], NUL⟩)) ∧
    ([⟨.TOKEN_WORD, "x"⟩, ⟨.TOKEN_SEMICOLON, ";"⟩] : List token_t).length = 2 ∧
    (scan_flags [⟨.TOKEN_WORD, "x"⟩, ⟨.TOKEN_SEMICOLON, ";"⟩]).has_paren
      = false ∧
    (scan_flags [⟨.TOKEN_WORD, "x"⟩, ⟨.TOKEN_SEMICOLON, ";"⟩]).has_curly
      = false ∧
    symbol_from_tokens [⟨.TOKEN_WORD, "x"⟩, ⟨.TOKEN_SEMICOLON, ";"⟩] = none :=
  ⟨rfl, rfl, rfl, rfl, rfl⟩

/-- C4 amended: for every completed logical unit with more than **2**
tokens whose first token is a Word other than `typedef`/`static`, that
contains no `(` Block-Open, no `{` Block-Open **and no Assign token**, and
whose last two tokens are a Word followed by a Semicolon, the recognizer
returns that Word's text.  (Without the no-Assign condition rule 2 can
preempt rule 3 and return a different Word.) -/
theorem c4_amended_plain (pre : List token_t) (w : String) (t0 : token_t)
    (h0 : pre.head? = some t0) (hty : t0.type = .TOKEN_WORD)
    (hv1 : t0.value ≠ "typedef") (hv2 : t0.value ≠ "static")
    (hp : (scan_flags
      (pre ++ [⟨.TOKEN_WORD, w⟩, ⟨.TOKEN_SEMICOLON, ";"⟩])).has_paren = false)
    (hc : (scan_flags
      (pre ++ [⟨.TOKEN_WORD, w⟩, ⟨.TOKEN_SEMICOLON, ";"⟩])).has_curly = false)
    (ha : (scan_flags
      (pre ++ [⟨.TOKEN_WORD, w⟩, ⟨.TOKEN_SEMICOLON, ";"⟩])).has_assign = 0) :
    symbol_from_tokens (pre ++ [⟨.TOKEN_WORD, w⟩, ⟨.TOKEN_SEMICOLON, ";"⟩])
      = some w := by
  have hpre : pre ≠ [] := fun h => by simp [h] at h0
  have hp0 : 0 < pre.length := List.length_pos.mpr hpre
  set ts : List token_t := pre ++ [⟨.TOKEN_WORD, w⟩, ⟨.TOKEN_SEMICOLON, ";"⟩]
    with hts
  have hlen : ts.length = pre.length + 2 := by simp [hts]
  have ehead : ts.head? = some t0 := by
    rw [hts, List.head?_eq_getElem? _, List.getElem?_append_left hp0,
        ← List.head?_eq_getElem? pre]
    exact h0
  have e0 : ts[pre.length]? = some ⟨.TOKEN_WORD, w⟩ := by
    rw [hts, List.getElem?_append_right (le_refl _)]
    simp
  have e1 : ts[pre.length + 1]? = some ⟨.TOKEN_SEMICOLON, ";"⟩ := by
    rw [hts, List.getElem?_append_right (by omega)]
    simp
  have hlast : ts.length - 1 = pre.length + 1 := by omega
  have hrp : rule_proto ts (pre.length + 1) = none := by
    unfold rule_proto
    rw [if_neg]
    rintro ⟨-, -, hb, -⟩
    rw [show pre.length + 1 - 1 = pre.length from rfl] at hb
    simp [matching_token, e0] at hb
  have hra : rule_assign ts (pre.length + 1) 0 = none := by
    unfold rule_assign
    rw [if_neg]
    rintro ⟨-, h⟩
    exact h rfl
  have hrpl : rule_plain ts (pre.length + 1) false false = some w := by
    unfold rule_plain
    rw [if_pos]
    · rw [show pre.length + 1 - 1 = pre.length from rfl, e0]
      rfl
    · refine ⟨by omega, rfl, rfl, by simp [matching_token, e1], ?_⟩
      rw [show pre.length + 1 - 1 = pre.length from rfl]
      simp [matching_token, e0]
  rw [symbol_from_tokens_rules ts t0 ehead hty hv1 hv2, hlast]
  simp only [hp, hc, ha, hrp, hra, hrpl, Option.orElse]

/-- Witness for the amended C4 at `extern int x ;` (the unit of
`extern int x;`): the symbol is `x`. -/
theorem c4_witness :
    symbol_from_tokens
      ([⟨.TOKEN_WORD, "extern"⟩, ⟨.TOKEN_WORD, "int"⟩]
        ++ [⟨.TOKEN_WORD, "x"⟩, ⟨.TOKEN_SEMICOLON, ";"⟩]) = some "x" :=
  c4_amended_plain [⟨.TOKEN_WORD, "extern"⟩, ⟨.TOKEN_WORD, "int"⟩] "x"
    ⟨.TOKEN_WORD, "extern"⟩ rfl rfl (by decide) (by decide) rfl rfl rfl

/-- C2 counterexample: in the token unit of `int a = b = c;` the first
Assign token is at index 2 and the token before it is the Word `a`, yet the
recognizer returns `b` — the word before the **last** Assign — because the
flag loop of `symbol_from_tokens` overwrites `has_assign` at every Assign
token. -/
theorem c2_counterexample :
    collect_tokens 40 (input_of_string "int a = b = c;") 64 =
      some (.ok ([⟨.TOKEN_WORD, "int"⟩, ⟨.TOKEN_WORD, "a"⟩,
                  ⟨.TOKEN_ASSIGN, "="⟩, ⟨.TOKEN_WORD, "b"⟩,
                  ⟨.TOKEN_ASSIGN, "="⟩, ⟨.TOKEN_WORD, "c"⟩,
                  ⟨.TOKEN_SEMICOLON, ";"⟩], ⟨[], NUL⟩)) ∧
    ([⟨.TOKEN_WORD, "int"⟩, ⟨.TOKEN_WORD, "a"⟩, ⟨.TOKEN_ASSIGN, "="⟩,
      ⟨.TOKEN_WORD, "b"⟩, ⟨.TOKEN_ASSIGN, "="⟩, ⟨.TOKEN_WORD, "c"⟩,
      ⟨.TOKEN_SEMICOLON, ";"⟩] : List token_t)[2]?
        = some ⟨.TOKEN_ASSIGN, "="⟩ ∧
    (∀ k, k < 2 →
      ([⟨.TOKEN_WORD, "int"⟩, ⟨.TOKEN_WORD, "a"⟩, ⟨.TOKEN_ASSIGN, "="⟩,
        ⟨.TOKEN_WORD, "b"⟩, ⟨.TOKEN_ASSIGN, "="⟩, ⟨.TOKEN_WORD, "c"⟩,
        ⟨.TOKEN_SEMICOLON, ";"⟩] : List token_t)[k]?.map token_t.type
          ≠ some .TOKEN_ASSIGN) ∧
    ([⟨.TOKEN_WORD, "int"⟩, ⟨.TOKEN_WORD, "a"⟩, ⟨.TOKEN_ASSIGN, "="⟩,
      ⟨.TOKEN_WORD, "b"⟩, ⟨.TOKEN_ASSIGN, "="⟩, ⟨.TOKEN_WORD, "c"⟩,
      ⟨.TOKEN_SEMICOLON, ";"⟩] : List token_t)[1]?
        = some ⟨.TOKEN_WORD, "a"⟩ ∧
    symbol_from_tokens
      [⟨.TOKEN_WORD, "int"⟩, ⟨.TOKEN_WORD, "a"⟩, ⟨.TOKEN_ASSIGN, "="⟩,
       ⟨.TOKEN_WORD, "b"⟩, ⟨.TOKEN_ASSIGN, "="⟩, ⟨.TOKEN_WORD, "c"⟩,
       ⟨.TOKEN_SEMICOLON, ";"⟩] = some "b" ∧
    ("b" : String) ≠ "a" :=
  ⟨rfl, rfl, by decide, rfl, rfl, by decide⟩

/-- C2 amended: the assignment rule uses the index of the **last** Assign
token: for every unit with more than 2 tokens whose first token is a Word
other than `typedef`/`static`, that contains an Assign token (the flag
loop records the last one, at index `j`), and on which the prototype rule
does not fire, if the token immediately before that last Assign is a Word,
the recognizer returns that Word's text — tokens of `int a = b = c;` yield
`b`, not `a`. -/
theorem c2_amended_assign (ts : List token_t) (t0 tw : token_t) (j : Nat)
    (h0 : ts.head? = some t0) (hty : t0.type = .TOKEN_WORD)
    (hv1 : t0.value ≠ "typedef") (hv2 : t0.value ≠ "static")
    (hlen : 2 < ts.length)
    (hj : (scan_flags ts).has_assign = j + 1) (hj1 : 1 ≤ j)
    (htw : ts[j - 1]? = some tw) (htwty : tw.type = .TOKEN_WORD)
    (hproto : rule_proto ts (ts.length - 1) = none) :
    symbol_from_tokens ts = some tw.value := by
  have hra : rule_assign ts (ts.length - 1) (j + 1) = some tw.value := by
    unfold rule_assign
    rw [if_pos ⟨by omega, by omega⟩]
    show (if 0 < j ∧ matching_token ts (j - 1) .TOKEN_WORD "" then
            (ts[j - 1]?).map token_t.value
          else if 1 < j ∧ matching_token ts (j - 1) .TOKEN_BLOCK "["
              ∧ matching_token ts (j - 2) .TOKEN_WORD "" then
            (ts[j - 2]?).map token_t.value
          else none) = some tw.value
    rw [if_pos ⟨by omega, by simp [matching_token, htw, htwty]⟩, htw]
    rfl
  rw [symbol_from_tokens_rules ts t0 h0 hty hv1 hv2]
  simp only [hproto, hj, hra, Option.orElse]

/-- Witness for the amended C2 at the unit of `int a = b = c;`: the flag
loop leaves `has_assign = 5` (last Assign at index 4), the token before it
is the Word `b`, and the recognizer returns `b`. -/
theorem c2_witness :
    symbol_from_tokens
      [⟨.TOKEN_WORD, "int"⟩, ⟨.TOKEN_WORD, "a"⟩, ⟨.TOKEN_ASSIGN, "="⟩,
       ⟨.TOKEN_WORD, "b"⟩, ⟨.TOKEN_ASSIGN, "="⟩, ⟨.TOKEN_WORD, "c"⟩,
       ⟨.TOKEN_SEMICOLON, ";"⟩] = some "b" :=
  c2_amended_assign
    [⟨.TOKEN_WORD, "int"⟩, ⟨.TOKEN_WORD, "a"⟩, ⟨.TOKEN_ASSIGN, "="⟩,
     ⟨.TOKEN_WORD, "b"⟩, ⟨.TOKEN_ASSIGN, "="⟩, ⟨.TOKEN_WORD, "c"⟩,
     ⟨.TOKEN_SEMICOLON, ";"⟩]
    ⟨.TOKEN_WORD, "int"⟩ ⟨.TOKEN_WORD, "b"⟩ 4
    rfl rfl (by decide) (by decide) (by decide) rfl (by decide) rfl rfl rfl

/-- A token position that matches `(WORD, any text)` and whose text is `s`
exhibits a Word token of the unit with text `s`. -/
theorem word_at_value (ts : List token_t) (n : Nat) (s : String)
    (hm : matching_token ts n .TOKEN_WORD "" = true)
    (hv : (ts[n]?).map token_t.value = some s) :
    ∃ t ∈ ts, t.type = .TOKEN_WORD ∧ t.value = s := by
  rcases hn : ts[n]? with _ | t
  · rw [hn] at hv; simp at hv
  · rw [hn] at hv
    simp only [Option.map_some', Option.some.injEq] at hv
    unfold matching_token at hm
    rw [hn] at hm
    simp at hm
    exact ⟨t, List.getElem?_mem hn, hm, hv⟩

/-- Rule 1 only ever returns the text of a Word token of the unit. -/
theorem rule_proto_word (ts : List token_t) (last : Nat) (s : String)
    (h : rule_proto ts last = some s) :
    ∃ t ∈ ts, t.type = .TOKEN_WORD ∧ t.value = s := by
  unfold rule_proto at h
  split_ifs at h with hc
  exact word_at_value ts (last - 2) s hc.2.2.2 h

/-- Rule 2 only ever returns the text of a Word token of the unit. -/
theorem rule_assign_word (ts : List token_t) (last ha : Nat) (s : String)
    (h : rule_assign ts last ha = some s) :
    ∃ t ∈ ts, t.type = .TOKEN_WORD ∧ t.value = s := by
  simp only [rule_assign] at h
  split_ifs at h with h1 h2 h3
  · exact word_at_value ts (ha - 1 - 1) s h2.2 h
  · exact word_at_value ts (ha - 1 - 2) s h3.2.2 h

/-- Rule 3 only ever returns the text of a Word token of the unit. -/
theorem rule_plain_word (ts : List token_t) (last : Nat) (hp hc : Bool)
    (s : String) (h : rule_plain ts last hp hc = some s) :
    ∃ t ∈ ts, t.type = .TOKEN_WORD ∧ t.value = s := by
  unfold rule_plain at h
  split_ifs at h with hcond
  exact word_at_value ts (last - 1) s hcond.2.2.2.2 h

/-- C10: whenever `symbol_from_tokens` returns a symbol, the returned text
is the text of some Word token occurring in the unit — the recognizer never
returns the text of a non-Word token and never fabricates a name. -/
theorem c10_symbol_is_word (ts : List token_t) (s : String)
    (h : symbol_from_tokens ts = some s) :
    ∃ t ∈ ts, t.type = .TOKEN_WORD ∧ t.value = s := by
  unfold symbol_from_tokens at h
  rcases h0 : ts.head? with _ | t0
  · rw [h0] at h
    exact absurd h (by simp)
  · simp only [h0] at h
    split_ifs at h with h1 h2
    rcases hr1 : rule_proto ts (ts.length - 1) with _ | v1
    · rw [hr1] at h
      simp only [Option.orElse] at h
      rcases hr2 : rule_assign ts (ts.length - 1) (scan_flags ts).has_assign
        with _ | v2
      · rw [hr2] at h
        simp only [Option.orElse] at h
        exact rule_plain_word ts (ts.length - 1) (scan_flags ts).has_paren
          (scan_flags ts).has_curly s h
      · rw [hr2] at h
        simp only [Option.orElse, Option.some.injEq] at h
        exact h ▸ rule_assign_word ts (ts.length - 1)
          (scan_flags ts).has_assign v2 hr2
    · rw [hr1] at h
      simp only [Option.orElse, Option.some.injEq] at h
      exact h ▸ rule_proto_word ts (ts.length - 1) v1 hr1

/-- Witness for C10 at the unit of `int foo(int x);`: the recognizer
returns `foo`, which is indeed the text of a Word token of the unit. -/
theorem c10_witness :
    ∃ t ∈ ([⟨.TOKEN_WORD, "int"⟩, ⟨.TOKEN_WORD, "foo"⟩, ⟨.TOKEN_BLOCK, "("⟩,
            ⟨.TOKEN_SEMICOLON, ";"⟩] : List token_t),
      t.type = .TOKEN_WORD ∧ t.value = "foo" :=
  c10_symbol_is_word
    [⟨.TOKEN_WORD, "int"⟩, ⟨.TOKEN_WORD, "foo"⟩, ⟨.TOKEN_BLOCK, "("⟩,
     ⟨.TOKEN_SEMICOLON, ";"⟩] "foo" rfl

/-- C7: whenever the tokenizer reads a `(` and the pending token list ends
with the Word `__attribute__`, after the balanced block is discarded both
the `__attribute__` token and the block are dropped (`n--; continue;`): no
Block token is appended and `has_paren` is left unchanged.  Consequently
`int f(void) __attribute__((unused));` tokenizes to `int f ( ;` and the
whole scan of that input yields exactly the symbol `f`. -/
theorem c7_attribute_filtered :
    (∀ (f : Nat) (s : cstate) (i' i'' : input_t),
        input_read s.inp = ('(', i') →
        input_discard_block f i' '(' = some (.ok i'') →
        attribute_word s.toks.getLast? = true →
        collect_step f s = some (.next ⟨i'', s.toks.dropLast, s.has_paren⟩)) ∧
    collect_tokens 60
        (input_of_string "int f(void) __attribute__((unused));") 64 =
      some (.ok ([⟨.TOKEN_WORD, "int"⟩, ⟨.TOKEN_WORD, "f"⟩,
                  ⟨.TOKEN_BLOCK, "("⟩, ⟨.TOKEN_SEMICOLON, ";"⟩],
                 ⟨[], NUL⟩)) ∧
    extract_symbols 3 60 (fun _ => true)
      (input_of_string "int f(void) __attribute__((unused));") [] = ["f"] := by
  refine ⟨?_, rfl, rfl⟩
  intro f s i' i'' hread hblock hattr
  simp only [collect_step, hread, hblock, hattr]
  simp

/-- Witness for C7 at a concrete state: pending tokens `__attribute__`,
next input `()`; the step drops both the Word and the block. -/
theorem c7_witness :
    collect_step 5
      ⟨⟨['(', ')'], NUL⟩, [⟨.TOKEN_WORD, "__attribute__"⟩], false⟩ =
      some (.next ⟨⟨[], NUL⟩, [], false⟩) :=
  c7_attribute_filtered.1 5
    ⟨⟨['(', ')'], NUL⟩, [⟨.TOKEN_WORD, "__attribute__"⟩], false⟩
    ⟨[')'], NUL⟩ ⟨[], NUL⟩ rfl rfl rfl

/-- C8: the scanning loop of `extract_symbols` treats a `collect_tokens`
failure (`-1`) exactly like a clean end of input (`0` tokens): in either
case scanning of the file stops at that point, no error is surfaced (the
function's result is just the table), and the symbols collected so far are
kept. -/
theorem c8_failure_is_eof (f g : Nat) (filt : String → Bool) (i : input_t)
    (st : List String) :
    (collect_tokens g i MAX_TOKENS = some (.error ()) →
      extract_symbols (f + 1) g filt i st = st) ∧
    (∀ i', collect_tokens g i MAX_TOKENS = some (.ok ([], i')) →
      extract_symbols (f + 1) g filt i st = st) := by
  constructor
  · intro h
    simp [extract_symbols, h]
  · intro i' h
    simp [extract_symbols, h]

/-- Witness for C8 at the malformed input `("` (end of stream inside a
quote inside a block, a tokenizer failure): the table collected so far is
returned unchanged. -/
theorem c8_witness :
    extract_symbols 2 10 (fun _ => true) (input_of_string "(\"") ["keep"]
      = ["keep"] :=
  (c8_failure_is_eof 1 10 (fun _ => true) (input_of_string "(\"")
    ["keep"]).1 rfl
